import Mathlib

/-!
Verification of the photo S3 backup pipeline (backup-photos.sh and its
Node control server) against its natural-language specification.

The shell script and the server are embedded shallowly: each bash function
becomes a Lean function over an explicit model of the filesystem state it
touches (files are records carrying path, bytes, stat date, EXIF day and
size; the per-directory ".uploaded" ledger is a list of entries; the sha256
digest is an opaque parameter `sha256 : List Nat → String`).  The script
runs under `set -euo pipefail` and post-increments its loop counters from
0 with `((counter++))`, an arithmetic command that returns status 1 when
the expression (the counter's old value) is 0 and thereby kills the whole
script; this fatal path is modelled by an `aborted` flag threaded through
the loop states.  The `grep -q`
call inside `is_uploaded` is modelled as a basic-regular-expression match in
which `.` matches any character, every other character occurring in the
script's pattern is literal, and the trailing `$` anchors the match at the
end of a line.
-/

namespace PhotoBackup

/-! ## Character-list utilities mirroring the shell's string operations -/

/-- `leadChars needle hay`: `needle` begins `hay` (used for substring search). -/
def leadChars : List Char → List Char → Bool
  | [], _ => true
  | _ :: _, [] => false
  | c :: cs, d :: ds => c == d && leadChars cs ds

/-- Substring containment, as in bash `[[ "$hay" == *"$needle"* ]]` and
JavaScript `hay.includes(needle)`. -/
def containsSub (needle : List Char) : List Char → Bool
  | [] => needle.isEmpty
  | c :: t => leadChars needle (c :: t) || containsSub needle t

/-- String-level substring containment. -/
def strContains (hay pat : String) : Bool := containsSub pat.data hay.data

/-- Split a character list on a separator character (never returns `[]`). -/
def splitOnChar (sep : Char) : List Char → List (List Char)
  | [] => [[]]
  | c :: cs =>
    let r := splitOnChar sep cs
    if c == sep then [] :: r
    else
      match r with
      | [] => [[c]]
      | s :: ss => (c :: s) :: ss

/-- `basename "$path"`: the final `/`-separated component. -/
def basename (p : String) : String :=
  ((splitOnChar '/' p.data).getLastD []).asString

/-- bash `${file_path##*.}`: everything after the last `.` of the whole
path, or the path unchanged when it contains no dot. -/
def extOfPath (p : String) : String :=
  ((splitOnChar '.' p.data).getLastD p.data).asString

/-- `tr '[:upper:]' '[:lower:]'` on ASCII text. -/
def lowerStr (s : String) : String := (s.data.map Char.toLower).asString

/-- `tr -d ' '` (the script applies it to each exclusion pattern). -/
def stripSpaces (s : String) : String := (s.data.filter (fun c => c != ' ')).asString

/-- bash `IFS=',' read -ra ARR <<< "$s"`: comma word-splitting; an empty
input yields no fields and a trailing delimiter yields no empty final
field. -/
def bashSplitComma (s : String) : List String :=
  if s = "" then []
  else
    let parts := (splitOnChar ',' s.data).map List.asString
    if parts.getLastD "" = "" then parts.dropLast else parts

/-! ## The data model: one source file as seen by one run of the script -/

/-- A file of the scanned tree, with the attributes the script reads:
`path` (as printed by `find`), raw `content` bytes, `mtimeDate` (the
`stat`-reported modification date, already formatted `YYYY-MM-DD`),
`exifDay` (the EXIF `DateTimeOriginal` truncated to a `YYYY-MM-DD` day,
`none` when not extractable) and the byte `size` reported by `stat`. -/
structure SrcFile where
  path : String
  content : List Nat
  mtimeDate : String
  exifDay : Option String
  size : Nat
deriving DecidableEq

/-! ## Fingerprint ledger (`.uploaded` file) and the grep membership test -/

/-- One line of a `.uploaded` ledger: `timestamp|relative_path|hash`. -/
structure LedgerEntry where
  timestamp : String
  relativePath : String
  contentHash : String
deriving DecidableEq

/-- The text of a ledger line, as `record_uploaded` writes it. -/
def entryLine (e : LedgerEntry) : List Char :=
  (e.timestamp ++ "|" ++ e.relativePath ++ "|" ++ e.contentHash).data

/-- A token of a compiled basic regular expression without operators:
a literal character or the `.` wildcard. -/
inductive PatTok where
  | lit (c : Char)
  | anyChar
deriving DecidableEq

/-- Whether one pattern token accepts one character. -/
def PatTok.matchesChar : PatTok → Char → Bool
  | .lit c, d => c == d
  | .anyChar, _ => true

/-- Compile one character of the grep pattern: `.` is the wildcard, every
other character appearing in the script's pattern (`|`, `/`, alphanumerics,
`-`, `_`, `:`, `+`) is literal. -/
def breTok (c : Char) : PatTok := if c == '.' then .anyChar else .lit c

/-- Compile a pattern string. -/
def breToks (s : String) : List PatTok := s.data.map breTok

/-- Exact token-wise match of a whole character list. -/
def toksMatch : List PatTok → List Char → Bool
  | [], [] => true
  | t :: ts, c :: cs => t.matchesChar c && toksMatch ts cs
  | _ :: _, [] => false
  | [], _ :: _ => false

/-- grep match of a `$`-anchored star-free pattern: some suffix of the line
matches the whole pattern. -/
def hasSuffixMatch (pat : List PatTok) : List Char → Bool
  | [] => toksMatch pat []
  | c :: t => toksMatch pat (c :: t) || hasSuffixMatch pat t

/-- bash `${file_path#$source_dir/}`: strip the leading `sourceDir/` when
present, otherwise leave the path unchanged. -/
def relPathOf (sourceDir filePath : String) : String :=
  if leadChars (sourceDir.data ++ ['/']) filePath.data then
    ((filePath.data).drop (sourceDir.data.length + 1)).asString
  else filePath

/-- The pattern text `"|$relative_path|$file_hash$"` handed to `grep -q`,
compiled; the `$` anchor is realised by `hasSuffixMatch`. -/
def grepPat (relPath fileHash : String) : List PatTok :=
  breToks ("|" ++ relPath ++ "|" ++ fileHash)

/-- `is_uploaded source_dir file_path`: recompute the hash, derive the
relative path, and `grep -q "|$relative_path|$file_hash$"` the ledger;
a missing ledger file (`ledger = none`) yields false (exit 1), no error. -/
def is_uploaded (sha256 : List Nat → String) (sourceDir : String)
    (ledger : Option (List LedgerEntry)) (f : SrcFile) : Bool :=
  match ledger with
  | none => false
  | some entries =>
    let rel := relPathOf sourceDir f.path
    let h := sha256 f.content
    entries.any (fun e => hasSuffixMatch (grepPat rel h) (entryLine e))

/-- `record_uploaded source_dir file_path`: append one
`timestamp|relative_path|hash` line (creating the ledger file when absent). -/
def record_uploaded (sha256 : List Nat → String) (now : String) (sourceDir : String)
    (ledger : Option (List LedgerEntry)) (f : SrcFile) : Option (List LedgerEntry) :=
  some (ledger.getD [] ++ [⟨now, relPathOf sourceDir f.path, sha256 f.content⟩])

/-! ## Date filters -/

/-- Lexicographic character-wise comparison, as bash `[[ "$a" < "$b" ]]`
(a strcmp over the characters). -/
def lexLt : List Char → List Char → Bool
  | [], [] => false
  | [], _ :: _ => true
  | _ :: _, [] => false
  | c :: cs, d :: ds => if c < d then true else if d < c then false else lexLt cs ds

/-- String-level lexicographic strict comparison. -/
def strLt (a b : String) : Bool := lexLt a.data b.data

/-- `is_in_date_range`: the file's `stat` modification date (already
`YYYY-MM-DD`) is compared with the global `START_DATE` / `END_DATE` by
bash's lexicographic `[[ < ]]` / `[[ > ]]`; an empty bound is skipped. -/
def is_in_date_range (startDate endDate : String) (f : SrcFile) : Bool :=
  let fileDate := f.mtimeDate
  if startDate ≠ "" && strLt fileDate startDate then false
  else if endDate ≠ "" && strLt endDate fileDate then false
  else true

/-- The date-source rule written in the specification (§4.3), for comparison
with the script: EXIF `DateTimeOriginal` truncated to a day when
extractable, else the filesystem modification date. The script's two
filters above and below use only `mtimeDate`. -/
def dateSourceSpec (f : SrcFile) : String := (f.exifDay).getD f.mtimeDate

/-! ## Extension classification -/

inductive FileType where
  | raw
  | jpg
  | unknown
deriving DecidableEq

/-- `get_file_type`: lower-case the text after the path's last dot and test
`[[ ",$RAW_EXTENSIONS," == *",$ext,"* ]]`, then the JPG set. -/
def get_file_type (rawExtensions jpgExtensions : String) (path : String) : FileType :=
  let ext := lowerStr (extOfPath path)
  if strContains ("," ++ rawExtensions ++ ",") ("," ++ ext ++ ",") then .raw
  else if strContains ("," ++ jpgExtensions ++ ",") ("," ++ ext ++ ",") then .jpg
  else .unknown

/-! ## The upload run (`upload_to_s3`)

The `find` enumeration of the source tree is abstracted as the input list
of files, in walk order.  The `aws s3 cp` transfer is the external
object-storage capability; a transfer is modelled as succeeding (on
transfer failure the script aborts the whole run via `error`).

The script runs under `set -euo pipefail`, and all its loop counters are
post-incremented from 0 with `((counter++))`: a bash arithmetic command
whose expression evaluates to 0 returns exit status 1, and the post
increment yields the counter's old value, so the first `((counter++))` of
each counter kills the whole script with exit status 1.  The state
therefore carries an `aborted` flag: once it is set the script is dead and
no further file is processed; in-memory counters at the moment of death
are lost, but filesystem effects already performed (a `cp`, an `aws s3 cp`,
a ledger append) persist.

`transfers` and `decisions` are ghost observers: `transfers` logs each
`aws s3 cp` invocation; `decisions` logs, per processed file, whether the
branch taken selected it for upload (`true`; printed as `アップロード中:`
or `[DRY RUN]`) or skipped it (`false`). -/

/-- The mutable locals of `upload_to_s3`, the abort flag, plus the ghost
observers. -/
structure UploadState where
  fileCount : Nat
  skipCount : Nat
  uploadCount : Nat
  totalSize : Nat
  ledger : Option (List LedgerEntry)
  transfers : List String
  decisions : List Bool
  aborted : Bool
deriving DecidableEq

/-- Exclusion test: split `EXCLUDE_PATTERNS` on commas, strip spaces from
each pattern, and test substring containment against the basename. -/
def excludedByPatterns (excludePatterns : String) (filename : String) : Bool :=
  (bashSplitComma excludePatterns).any (fun p => strContains filename (stripSpaces p))

/-- The body of `upload_to_s3`'s per-file loop, in the script's order:
`((file_count++))` — which kills the script when `file_count` is still 0,
i.e. on the first walked file of every run, dry or live — then exclusion
check, date-range check, dedup check, classification check (each skip
branch ends in a `((skip_count++))` that likewise kills the script when
`skip_count` is still 0), size accumulation, then either the dry-run log
or the transfer, the ledger append and `((upload_count++))` (fatal when
`upload_count` is still 0, after the transfer and the append happened).
Once `aborted` is set the script is dead and the file is not processed. -/
def processFile (rawExtensions jpgExtensions excludePatterns : String)
    (sha256 : List Nat → String) (now : String) (dryRun : Bool)
    (startDate endDate sourceDir : String)
    (st : UploadState) (f : SrcFile) : UploadState :=
  if st.aborted then st
  else if st.fileCount = 0 then { st with fileCount := 1, aborted := true }
  else
    let st := { st with fileCount := st.fileCount + 1 }
    let filename := basename f.path
    if excludedByPatterns excludePatterns filename then
      if st.skipCount = 0 then
        { st with skipCount := 1, decisions := st.decisions ++ [false], aborted := true }
      else { st with skipCount := st.skipCount + 1, decisions := st.decisions ++ [false] }
    else if !(is_in_date_range startDate endDate f) then
      if st.skipCount = 0 then
        { st with skipCount := 1, decisions := st.decisions ++ [false], aborted := true }
      else { st with skipCount := st.skipCount + 1, decisions := st.decisions ++ [false] }
    else if is_uploaded sha256 sourceDir st.ledger f then
      if st.skipCount = 0 then
        { st with skipCount := 1, decisions := st.decisions ++ [false], aborted := true }
      else { st with skipCount := st.skipCount + 1, decisions := st.decisions ++ [false] }
    else
      match get_file_type rawExtensions jpgExtensions f.path with
      | .unknown =>
        if st.skipCount = 0 then
          { st with skipCount := 1, decisions := st.decisions ++ [false], aborted := true }
        else { st with skipCount := st.skipCount + 1, decisions := st.decisions ++ [false] }
      | _ =>
        let st := { st with totalSize := st.totalSize + f.size,
                            decisions := st.decisions ++ [true] }
        if dryRun then st
        else
          let st := { st with transfers := st.transfers ++ [f.path],
                              ledger := record_uploaded sha256 now sourceDir st.ledger f }
          if st.uploadCount = 0 then { st with uploadCount := 1, aborted := true }
          else { st with uploadCount := st.uploadCount + 1 }

/-- A whole `upload_to_s3` run over the walked files, starting from the
ledger currently on disk in the source directory; `aborted = true` in the
result means the script exited with status 1 mid-walk (which happens at
the first file of every non-empty walk, via `((file_count++))` from 0). -/
def upload_to_s3 (rawExtensions jpgExtensions excludePatterns : String)
    (sha256 : List Nat → String) (now : String) (dryRun : Bool)
    (startDate endDate sourceDir : String)
    (ledger0 : Option (List LedgerEntry)) (files : List SrcFile) : UploadState :=
  files.foldl
    (processFile rawExtensions jpgExtensions excludePatterns sha256 now dryRun
      startDate endDate sourceDir)
    { fileCount := 0, skipCount := 0, uploadCount := 0, totalSize := 0,
      ledger := ledger0, transfers := [], decisions := [], aborted := false }

/-! ## The import run (`import_from_sd`) -/

/-- The mutable locals of `import_from_sd`, the abort flag, plus ghost
observers: `copies` logs each executed `cp`, `destFiles` is the set of
names present in the destination folder (updated by each live copy),
`decisions` logs, per date-matching file, copy/would-copy (`true`) versus
skipped-existing (`false`). -/
structure ImportState where
  importedCount : Nat
  skippedCount : Nat
  copies : List String
  destFiles : List String
  decisions : List Bool
  aborted : Bool
deriving DecidableEq

/-- The body of `import_from_sd`'s per-file loop: files whose `stat` date
differs from the target date are passed over silently; a name already in
the destination is skipped — but `((skipped_count++))` kills the script
(status 1, `set -e`) when `skipped_count` is still 0; a new name is
reported in dry-run mode (no copy, no counter, the walk continues), while
in live mode `cp` succeeds — the copy persists — and then
`((imported_count++))` kills the script when `imported_count` is still 0.
Once `aborted` is set the script is dead and the file is not processed. -/
def importStep (dryRun : Bool) (importDate : String)
    (st : ImportState) (f : SrcFile) : ImportState :=
  if st.aborted then st
  else
    let filename := basename f.path
    if f.mtimeDate ≠ importDate then st
    else if st.destFiles.contains filename then
      if st.skippedCount = 0 then
        { st with skippedCount := 1, decisions := st.decisions ++ [false], aborted := true }
      else { st with skippedCount := st.skippedCount + 1,
                     decisions := st.decisions ++ [false] }
    else if dryRun then
      { st with decisions := st.decisions ++ [true] }
    else
      let st := { st with copies := st.copies ++ [filename],
                          destFiles := st.destFiles ++ [filename],
                          decisions := st.decisions ++ [true] }
      if st.importedCount = 0 then { st with importedCount := 1, aborted := true }
      else { st with importedCount := st.importedCount + 1 }

/-- The arguments of the chained `upload_to_s3` call: the globals it reads
when `import_from_sd` invokes it. -/
structure UploadArgs where
  sourceDir : String
  startDate : String
  endDate : String
  dryRun : Bool
deriving DecidableEq

/-- Result of an import run: final loop state, the destination folder, and
the chained upload invocation when one happens. -/
structure ImportResult where
  state : ImportState
  destDir : String
  chainedUpload : Option UploadArgs
deriving DecidableEq

/-- The `sed` call deleting every `-` of the import date:
`YYYY-MM-DD` → `YYYYMMDD`. -/
def dateFolderName (importDate : String) : String :=
  (importDate.data.filter (fun c => c ≠ '-')).asString

/-- A whole `import_from_sd` run.  `startDate`/`endDate` are the global
`START_DATE`/`END_DATE` already parsed from the command line; the chained
`upload_to_s3` call reads them unchanged.  The walk of the SD volume is
abstracted as `files`; `existingDest` is the set of names already present
in the destination folder.  When the walk aborted (the script exited 1 at
a counter increment) nothing after the loop runs: no summary, and no
chained upload. -/
def import_from_sd (dryRun : Bool) (startDate endDate : String)
    (localImportBase importDate : String)
    (existingDest : List String) (files : List SrcFile) : ImportResult :=
  let destDir := localImportBase ++ "/" ++ dateFolderName importDate
  let final := files.foldl (importStep dryRun importDate)
    { importedCount := 0, skippedCount := 0, copies := [],
      destFiles := existingDest, decisions := [], aborted := false }
  let chained :=
    if final.aborted then none
    else if final.importedCount > 0 || dryRun then
      some { sourceDir := destDir, startDate := startDate, endDate := endDate,
             dryRun := dryRun }
    else none
  { state := final, destDir := destDir, chainedUpload := chained }

/-! ## Job tracker (control server) -/

inductive JobStatus where
  | running
  | completed
  | failed
  | interrupted
deriving DecidableEq

structure JobProgress where
  total : Nat
  completed : Nat
  skipped : Nat
deriving DecidableEq

/-- One tracked upload job, mirroring the server's `uploadData` object and
its persisted JSON. -/
structure JobRecord where
  status : JobStatus
  sourcePath : String
  startDate : Option String
  endDate : Option String
  dryRun : Bool
  startTime : String
  endTime : Option String
  exitCode : Option Int
  output : String
  error : String
  currentFile : String
  progress : JobProgress
deriving DecidableEq

/-- The initial record written by `POST /api/upload` before spawning. -/
def initialUploadRecord (sourcePath : String) (startDate endDate : Option String)
    (dryRun : Bool) (now : String) : JobRecord :=
  { status := .running, sourcePath := sourcePath, startDate := startDate,
    endDate := endDate, dryRun := dryRun, startTime := now, endTime := none,
    exitCode := none, output := "", error := "", currentFile := "",
    progress := { total := 0, completed := 0, skipped := 0 } }

/-- The reclassification applied by `loadActiveUploads` to a record found
with status `running`: only the status field is rewritten. -/
def markInterrupted (r : JobRecord) : JobRecord := { r with status := .interrupted }

/-- `loadActiveUploads`: the in-memory `activeUploads` map built on
startup. Only persisted records with status `running` are loaded, after
being marked `interrupted`; records with any other status are not loaded. -/
def loadActiveUploads (persisted : List (String × JobRecord)) :
    List (String × JobRecord) :=
  persisted.filterMap
    (fun p => if p.2.status = .running then some (p.1, markInterrupted p.2) else none)

/-- The persisted progress files after the startup pass: records that were
`running` are re-saved as `interrupted`; every other file is untouched. -/
def persistedAfterStartup (persisted : List (String × JobRecord)) :
    List (String × JobRecord) :=
  persisted.map
    (fun p => if p.2.status = .running then (p.1, markInterrupted p.2) else p)

/-- `activeUploads.get(id)` (the map is keyed by the id string). -/
def lookupUpload (m : List (String × JobRecord)) (id : String) : Option JobRecord :=
  (m.find? (fun p => p.1 == id)).map Prod.snd

/-- The `GET /api/uploads/:id` handler: 404 when the id is not in the
in-memory map, otherwise the record. -/
def getUploadResponse (m : List (String × JobRecord)) (id : String) :
    Except String JobRecord :=
  match lookupUpload m id with
  | none => .error "Upload not found"
  | some r => .ok r

/-! ## Job finalisation and the output-stream handlers -/

/-- Retention of a finished job's data: one hour, in milliseconds
(`60 * 60 * 1000` in the `setTimeout` of the close handler). -/
def RETENTION_MS : Nat := 60 * 60 * 1000

/-- What the `childProcess.on('close')` handler produces: the finalised
record, the fact that it is persisted, and the scheduled deletion delay. -/
structure FinalizeResult where
  record : JobRecord
  persisted : Bool
  deleteAfterMs : Nat
deriving DecidableEq

/-- The close handler: `status = code === 0 ? 'completed' : 'failed'`,
`endTime` and `exitCode` set, record saved, deletion scheduled after the
retention window.  `code` is `none` when the process died to a signal. -/
def finalizeJob (r : JobRecord) (code : Option Int) (now : String) : FinalizeResult :=
  { record := { r with
      status := if code = some 0 then .completed else .failed,
      endTime := some now,
      exitCode := code },
    persisted := true,
    deleteAfterMs := RETENTION_MS }

/-- The `stderr` data handler: append the chunk to `error`. -/
def stderrUpdate (r : JobRecord) (chunk : String) : JobRecord :=
  { r with error := r.error ++ chunk }

/-- The extension alternation of the progress-parsing regex
`/([^\/\\]+\.(?:jpg|jpeg|png|dng|raf|cr2|cr3|nef|arw|orf|rw2))/i`,
in source order. -/
def progressExtensions : List String :=
  ["jpg", "jpeg", "png", "dng", "raf", "cr2", "cr3", "nef", "arw", "orf", "rw2"]

/-- Case-insensitive test that `pat` (already lower case) begins `cs`. -/
def ciLeads (pat : List Char) : List Char → Bool
  | [] => pat.isEmpty
  | c :: cs =>
    match pat with
    | [] => true
    | p :: ps => p == c.toLower && ciLeads ps cs

/-- If an alternation branch matches at the head of `cs`, the length of the
first branch (in source order) that does. -/
def extAlternationAt (cs : List Char) : Option Nat :=
  (progressExtensions.find? (fun e => ciLeads e.data cs)).map String.length

/-- Split a line at `/` and `\` — the characters the regex class
`[^\/\\]+` cannot cross. -/
def splitSlashes : List Char → List (List Char)
  | [] => [[]]
  | c :: cs =>
    let r := splitSlashes cs
    if c == '/' || c == '\\' then [] :: r
    else
      match r with
      | [] => [[c]]
      | s :: ss => (c :: s) :: ss

/-- The regex match inside one slash-free segment: the greedy `[^\/\\]+`
starts at the segment's beginning and backtracks to the rightmost dot
followed by a recognised extension; at least one character must precede
the dot. -/
def fileMatchInSeg (seg : List Char) : Option (List Char) :=
  ((List.range seg.length).reverse.filterMap (fun i =>
    if 1 ≤ i ∧ (seg.drop i).headD ' ' = '.' then
      match extAlternationAt (seg.drop (i + 1)) with
      | some len => some (seg.take (i + 1 + len))
      | none => none
    else none)).headD []
  |> (fun m => if m.isEmpty then none else some m)

/-- The leftmost match of the filename regex in a whole line: the first
slash-delimited segment that contains one. -/
def extractCurrentFile (line : List Char) : Option (List Char) :=
  ((splitSlashes line).filterMap fileMatchInSeg).head?

/-- Decimal value of a digit run. -/
def digitsVal (ds : List Char) : Nat :=
  ds.foldl (fun n c => n * 10 + (c.toNat - 48)) 0

/-- The regex `/marker\s*(\d+)/` applied to a line: scan for an occurrence
of the marker followed by optional whitespace and at least one digit, and
return the digit run's value. -/
def parseNumAfter (marker : List Char) : List Char → Option Nat
  | [] => none
  | c :: t =>
    if leadChars marker (c :: t) then
      let rest := (c :: t).drop marker.length
      let ds := (rest.dropWhile Char.isWhitespace).takeWhile Char.isDigit
      if ds.isEmpty then parseNumAfter marker t else some (digitsVal ds)
    else parseNumAfter marker t

/-- Processing of one output line by the `stdout` data handler: update
`currentFile` on upload/dry-run lines, and the three progress counters on
summary lines. -/
def stdoutCurrentFile (line : String) (r : JobRecord) : JobRecord :=
  if strContains line "アップロード中:" || strContains line "[DRY RUN]" then
    match extractCurrentFile line.data with
    | some m => { r with currentFile := m.asString }
    | none => r
  else r

def stdoutTotal (line : String) (r : JobRecord) : JobRecord :=
  if strContains line "総ファイル数:" then
    match parseNumAfter "総ファイル数:".data line.data with
    | some n => { r with progress := { r.progress with total := n } }
    | none => r
  else r

def stdoutCompleted (line : String) (r : JobRecord) : JobRecord :=
  if strContains line "アップロード:" then
    match parseNumAfter "アップロード:".data line.data with
    | some n => { r with progress := { r.progress with completed := n } }
    | none => r
  else r

def stdoutSkipped (line : String) (r : JobRecord) : JobRecord :=
  if strContains line "スキップ:" then
    match parseNumAfter "スキップ:".data line.data with
    | some n => { r with progress := { r.progress with skipped := n } }
    | none => r
  else r

def stdoutLine (r : JobRecord) (line : String) : JobRecord :=
  stdoutSkipped line (stdoutCompleted line (stdoutTotal line (stdoutCurrentFile line r)))

/-- The `stdout` data handler: append the chunk to `output`, then process
each of its lines. -/
def stdoutUpdate (r : JobRecord) (chunk : String) : JobRecord :=
  ((splitOnChar '\n' chunk.data).map List.asString).foldl stdoutLine
    { r with output := r.output ++ chunk }

/-! ## Service startup order -/

inductive StartupEvent where
  | serverAcceptsRequests
  | progressDirInit
  | reconciliationPass
deriving DecidableEq, BEq

/-- The startup sequence of the control server, as ordered events.  The
source is `app.listen(PORT, async () => { console.log(...); await
initProgressDir(); await loadActiveUploads(); })`: the Node server begins
accepting connections as soon as it is listening; the listen callback runs
after that, and each `await` inside it yields to the event loop, so
requests can be served before `loadActiveUploads` has run. -/
def startupSequence : List StartupEvent :=
  [.serverAcceptsRequests, .progressDirInit, .reconciliationPass]

/-- The property the specification demands of a startup sequence: the
reconciliation pass completes before the API starts accepting requests. -/
def reconcileBeforeAccepting (seq : List StartupEvent) : Bool :=
  seq.indexOf .reconciliationPass < seq.indexOf .serverAcceptsRequests

/-! ## Lemmas about the grep membership test -/

/-- Character-wise match against a pattern string in which `.` is a
wildcard: the specification-level reading of what the ledger grep accepts
for the relative-path part. -/
def dotMatch : List Char → List Char → Bool
  | [], [] => true
  | c :: cs, r :: rs => (c == '.' || c == r) && dotMatch cs rs
  | [], _ :: _ => false
  | _ :: _, [] => false

theorem dotMatch_self (s : List Char) : dotMatch s s = true := by
  induction s with
  | nil => rfl
  | cons c cs ih => simp [dotMatch, ih]

theorem toksMatch_nil_iff (cs : List Char) : toksMatch [] cs = true ↔ cs = [] := by
  cases cs <;> simp [toksMatch]

theorem toksMatch_append_split {p1 p2 : List PatTok} {cs : List Char}
    (h : toksMatch (p1 ++ p2) cs = true) :
    ∃ cs1 cs2, cs = cs1 ++ cs2 ∧ toksMatch p1 cs1 = true ∧ toksMatch p2 cs2 = true := by
  induction p1 generalizing cs with
  | nil => exact ⟨[], cs, rfl, rfl, by simpa using h⟩
  | cons t ts ih =>
    cases cs with
    | nil => simp [toksMatch] at h
    | cons c cs' =>
      rw [List.cons_append] at h
      simp only [toksMatch, Bool.and_eq_true] at h
      obtain ⟨h1, h2⟩ := h
      obtain ⟨cs1, cs2, rfl, m1, m2⟩ := ih h2
      exact ⟨c :: cs1, cs2, rfl, by simp [toksMatch, h1, m1], m2⟩

theorem toksMatch_append_intro {p1 p2 : List PatTok} {cs1 cs2 : List Char}
    (h1 : toksMatch p1 cs1 = true) (h2 : toksMatch p2 cs2 = true) :
    toksMatch (p1 ++ p2) (cs1 ++ cs2) = true := by
  induction p1 generalizing cs1 with
  | nil =>
    obtain rfl := (toksMatch_nil_iff cs1).1 h1
    simpa using h2
  | cons t ts ih =>
    cases cs1 with
    | nil => simp [toksMatch] at h1
    | cons c cs' =>
      simp only [toksMatch, Bool.and_eq_true] at h1
      simpa [toksMatch, h1.1] using ih h1.2

theorem toksMatch_lit_mem {p : List PatTok} {cs : List Char} {c : Char}
    (h : toksMatch p cs = true) (hc : PatTok.lit c ∈ p) : c ∈ cs := by
  induction p generalizing cs with
  | nil => cases hc
  | cons t ts ih =>
    cases cs with
    | nil => simp [toksMatch] at h
    | cons d ds =>
      simp only [toksMatch, Bool.and_eq_true] at h
      rcases List.mem_cons.1 hc with hc | hc
      · subst hc
        have : c = d := by simpa [PatTok.matchesChar] using h.1
        simp [this]
      · exact List.mem_cons_of_mem _ (ih h.2 hc)

theorem hasSuffixMatch_lit_mem {p : List PatTok} {cs : List Char} {c : Char}
    (h : hasSuffixMatch p cs = true) (hc : PatTok.lit c ∈ p) : c ∈ cs := by
  induction cs with
  | nil =>
    cases p with
    | nil => cases hc
    | cons t ts => simp [hasSuffixMatch, toksMatch] at h
  | cons d ds ih =>
    simp only [hasSuffixMatch, Bool.or_eq_true] at h
    rcases h with h | h
    · exact toksMatch_lit_mem h hc
    · exact List.mem_cons_of_mem _ (ih h)

theorem hasSuffixMatch_of_toksMatch {p : List PatTok} {cs : List Char}
    (h : toksMatch p cs = true) : hasSuffixMatch p cs = true := by
  cases cs <;> simp [hasSuffixMatch, h]

theorem hasSuffixMatch_append_left {p : List PatTok} (pre : List Char)
    {cs : List Char} (h : hasSuffixMatch p cs = true) :
    hasSuffixMatch p (pre ++ cs) = true := by
  induction pre with
  | nil => simpa using h
  | cons c t ih => simp [hasSuffixMatch, ih]

theorem hasSuffixMatch_pipe_only {p : List PatTok} {cs : List Char}
    (hp : PatTok.lit '|' ∈ p) (hcs : '|' ∉ cs) : hasSuffixMatch p cs = false := by
  cases hv : hasSuffixMatch p cs with
  | false => rfl
  | true => exact absurd (hasSuffixMatch_lit_mem hv hp) hcs

theorem toksMatch_lits_iff (a b : List Char) :
    toksMatch (a.map PatTok.lit) b = true ↔ a = b := by
  induction a generalizing b with
  | nil => simpa using toksMatch_nil_iff b
  | cons c cs ih =>
    cases b with
    | nil => simp [toksMatch]
    | cons d ds => simp [toksMatch, PatTok.matchesChar, ih]

theorem toksMatch_breToks_eq (a b : List Char) :
    toksMatch (a.map breTok) b = dotMatch a b := by
  induction a generalizing b with
  | nil => cases b <;> simp [toksMatch, dotMatch]
  | cons c cs ih =>
    cases b with
    | nil => by_cases hc : c == '.' <;> simp [toksMatch, dotMatch, breTok, hc]
    | cons d ds =>
      by_cases hc : c == '.' <;>
        simp [toksMatch, dotMatch, breTok, hc, PatTok.matchesChar, ih]

theorem breToks_of_no_dot {s : List Char} (h : '.' ∉ s) :
    s.map breTok = s.map PatTok.lit := by
  induction s with
  | nil => rfl
  | cons c cs ih =>
    simp only [List.mem_cons, not_or] at h
    have hc : c ≠ '.' := fun hh => h.1 hh.symm
    simp [breTok, hc, ih h.2]

/-- Alignment of the tail of the grep pattern against the tail of a ledger
line: once the leading `|` of the pattern is placed on the line's first
delimiter, the rest of the pattern decomposes field-wise, provided the
pattern's relative path and the line's fields contain no `|`. -/
theorem toksMatch_relhash {rel rel' h h' : List Char}
    (hrel : '|' ∉ rel) (hrel' : '|' ∉ rel') (hh' : '|' ∉ h')
    (m : toksMatch (rel.map breTok ++ PatTok.lit '|' :: h.map PatTok.lit)
      (rel' ++ '|' :: h') = true) :
    dotMatch rel rel' = true ∧ h = h' := by
  induction rel generalizing rel' with
  | nil =>
    cases rel' with
    | nil =>
      simp only [List.map_nil, List.nil_append, toksMatch, Bool.and_eq_true,
        PatTok.matchesChar] at m
      exact ⟨rfl, (toksMatch_lits_iff h h').1 m.2⟩
    | cons r rs =>
      exfalso
      simp only [List.map_nil, List.nil_append, List.cons_append, toksMatch,
        Bool.and_eq_true, PatTok.matchesChar, beq_iff_eq] at m
      exact hrel' (by simp [← m.1])
  | cons c cs ih =>
    cases rel' with
    | nil =>
      exfalso
      simp only [List.map_cons, List.cons_append, List.nil_append, toksMatch,
        Bool.and_eq_true] at m
      by_cases hc : c = '.'
      · have hmem : PatTok.lit '|' ∈ cs.map breTok ++ PatTok.lit '|' :: h.map PatTok.lit := by
          simp
        exact hh' (toksMatch_lit_mem m.2 hmem)
      · have : c = '|' := by simpa [breTok, hc, PatTok.matchesChar] using m.1
        exact hrel (List.mem_cons.2 (Or.inl this.symm))
    | cons r rs =>
      simp only [List.map_cons, List.cons_append, toksMatch, Bool.and_eq_true] at m
      simp only [List.mem_cons, not_or] at hrel hrel'
      obtain ⟨hd, hhh⟩ := ih hrel.2 hrel'.2 (by simpa using m.2)
      refine ⟨?_, hhh⟩
      have hhead : (c == '.' || c == r) = true := by
        by_cases hc : c = '.'
        · simp [hc]
        · simpa [breTok, hc, PatTok.matchesChar] using m.1
      simp [dotMatch, hhead, hd]



theorem bool_eq_false {b : Bool} (h : b = true → False) : b = false := by
  cases b
  · rfl
  · exact absurd rfl h

theorem pipeData : ("|" : String).data = ['|'] := rfl

/-- No suffix strictly inside `rel' ++ '|' :: h'` matches the full grep
pattern: every candidate start lands on a non-`|` character, or leaves the
second `|` of the pattern facing the `|`-free hash field. -/
theorem hasSuffixMatch_tail_false {rel h rel' h' : List Char}
    (hrel' : '|' ∉ rel') (hh' : '|' ∉ h') :
    hasSuffixMatch (PatTok.lit '|' :: (rel.map breTok ++ PatTok.lit '|' :: h.map PatTok.lit))
      (rel' ++ '|' :: h') = false := by
  induction rel' with
  | nil =>
    rw [List.nil_append]
    show (toksMatch _ ('|' :: h') || hasSuffixMatch _ h') = false
    have h1 : toksMatch
        (PatTok.lit '|' :: (rel.map breTok ++ PatTok.lit '|' :: h.map PatTok.lit))
        ('|' :: h') = false := by
      refine bool_eq_false (fun hv => ?_)
      simp only [toksMatch, Bool.and_eq_true] at hv
      exact hh' (toksMatch_lit_mem hv.2 (by simp))
    rw [h1, Bool.false_or]
    exact hasSuffixMatch_pipe_only (by simp) hh'
  | cons r rs ih =>
    simp only [List.mem_cons, not_or] at hrel'
    rw [List.cons_append]
    show (toksMatch _ (r :: (rs ++ '|' :: h')) || hasSuffixMatch _ (rs ++ '|' :: h')) = false
    have h1 : toksMatch
        (PatTok.lit '|' :: (rel.map breTok ++ PatTok.lit '|' :: h.map PatTok.lit))
        (r :: (rs ++ '|' :: h')) = false := by
      refine bool_eq_false (fun hv => ?_)
      simp only [toksMatch, Bool.and_eq_true, PatTok.matchesChar, beq_iff_eq] at hv
      exact hrel'.1 hv.1
    rw [h1, Bool.false_or]
    exact ih hrel'.2

/-- The grep membership test on one well-formed ledger line, characterised:
the `$`-anchored pattern `|rel|hash` matches the line `ts|rel'|hash'`
exactly when `hash = hash'` and `rel` matches `rel'` with each `.` of `rel`
acting as a wildcard — provided none of the fields contains `|`. -/
theorem grep_line_iff {ts rel rel' h h' : List Char}
    (hts : '|' ∉ ts) (hrel : '|' ∉ rel) (hrel' : '|' ∉ rel') (hh' : '|' ∉ h') :
    hasSuffixMatch (PatTok.lit '|' :: (rel.map breTok ++ PatTok.lit '|' :: h.map PatTok.lit))
      (ts ++ ('|' :: (rel' ++ '|' :: h'))) = true ↔
    (dotMatch rel rel' = true ∧ h = h') := by
  induction ts with
  | nil =>
    rw [List.nil_append]
    show (toksMatch _ ('|' :: (rel' ++ '|' :: h')) || hasSuffixMatch _ (rel' ++ '|' :: h')) =
        true ↔ _
    rw [hasSuffixMatch_tail_false hrel' hh', Bool.or_false]
    constructor
    · intro hv
      simp only [toksMatch, Bool.and_eq_true] at hv
      exact toksMatch_relhash hrel hrel' hh' hv.2
    · rintro ⟨hd, rfl⟩
      simp only [toksMatch, Bool.and_eq_true]
      refine ⟨rfl, ?_⟩
      refine toksMatch_append_intro ?_ ?_
      · rw [toksMatch_breToks_eq]; exact hd
      · simp only [toksMatch, Bool.and_eq_true, PatTok.matchesChar]
        exact ⟨rfl, (toksMatch_lits_iff h h).2 rfl⟩
  | cons t ts' ih =>
    simp only [List.mem_cons, not_or] at hts
    rw [List.cons_append]
    show (toksMatch _ (t :: (ts' ++ ('|' :: (rel' ++ '|' :: h')))) ||
        hasSuffixMatch _ (ts' ++ ('|' :: (rel' ++ '|' :: h')))) = true ↔ _
    have h1 : toksMatch
        (PatTok.lit '|' :: (rel.map breTok ++ PatTok.lit '|' :: h.map PatTok.lit))
        (t :: (ts' ++ ('|' :: (rel' ++ '|' :: h')))) = false := by
      refine bool_eq_false (fun hv => ?_)
      simp only [toksMatch, Bool.and_eq_true, PatTok.matchesChar, beq_iff_eq] at hv
      exact hts.1 hv.1
    rw [h1, Bool.false_or]
    exact ih hts.2

/-- The compiled grep pattern, decomposed into its three fields. -/
theorem grepPat_decomp (rel h : String) :
    grepPat rel h =
      PatTok.lit '|' :: (rel.data.map breTok ++ PatTok.lit '|' :: h.data.map breTok) := by
  have hb : breTok '|' = PatTok.lit '|' := rfl
  simp [grepPat, breToks, String.data_append, pipeData, hb]

/-- A ledger line, decomposed into its three fields. -/
theorem entryLine_decomp (e : LedgerEntry) :
    entryLine e =
      e.timestamp.data ++ ('|' :: (e.relativePath.data ++ '|' :: e.contentHash.data)) := by
  simp [entryLine, String.data_append, pipeData]

/-- The entry just appended by `record_uploaded` for a file is found again
by `is_uploaded` for the same file: the pattern matches its own line. -/
theorem is_uploaded_after_record (sha256 : List Nat → String) (now sourceDir : String)
    (ledger : Option (List LedgerEntry)) (f : SrcFile) :
    is_uploaded sha256 sourceDir (record_uploaded sha256 now sourceDir ledger f) f = true := by
  unfold is_uploaded record_uploaded
  simp only [List.any_append, List.any_cons, List.any_nil, Bool.or_eq_true]
  right; left
  rw [entryLine_decomp, grepPat_decomp]
  refine hasSuffixMatch_append_left _ (hasSuffixMatch_of_toksMatch ?_)
  simp only [toksMatch, Bool.and_eq_true]
  refine ⟨rfl, ?_⟩
  refine toksMatch_append_intro ?_ ?_
  · rw [toksMatch_breToks_eq]; exact dotMatch_self _
  · simp only [toksMatch, Bool.and_eq_true, PatTok.matchesChar]
    refine ⟨rfl, ?_⟩
    rw [toksMatch_breToks_eq]; exact dotMatch_self _

/-- Reading the ledger right after an append: the lookup for `g` either
succeeded already or is satisfied by the new line for `f`. -/
theorem is_uploaded_record (sha256 : List Nat → String) (now sourceDir : String)
    (ledger : Option (List LedgerEntry)) (f g : SrcFile) :
    is_uploaded sha256 sourceDir (record_uploaded sha256 now sourceDir ledger f) g =
      (is_uploaded sha256 sourceDir ledger g ||
        hasSuffixMatch (grepPat (relPathOf sourceDir g.path) (sha256 g.content))
          (entryLine ⟨now, relPathOf sourceDir f.path, sha256 f.content⟩)) := by
  cases ledger with
  | none => simp [is_uploaded, record_uploaded]
  | some l => simp [is_uploaded, record_uploaded]



/-! ## Bridging the embedded lexicographic comparison to the String order -/

theorem lexLt_iff (a : List Char) : ∀ b : List Char, lexLt a b = true ↔ List.Lex (· < ·) a b := by
  induction a with
  | nil =>
    intro b
    cases b with
    | nil =>
      simp only [lexLt, Bool.false_eq_true, false_iff]
      intro h
      cases h
    | cons d ds =>
      simp only [lexLt, true_iff]
      exact List.Lex.nil
  | cons c cs ih =>
    intro b
    cases b with
    | nil =>
      simp only [lexLt, Bool.false_eq_true, false_iff]
      intro h
      cases h
    | cons d ds =>
      by_cases h1 : c < d
      · simp only [lexLt, h1, if_pos, true_iff]
        exact List.Lex.rel h1
      · by_cases h2 : d < c
        · simp only [lexLt, h1, h2, if_neg, if_pos, not_false_iff, Bool.false_eq_true,
            false_iff]
          intro h
          cases h with
          | cons hh => exact lt_irrefl _ h2
          | rel hh => exact h1 hh
        · have hcd : c = d := le_antisymm (not_lt.1 h2) (not_lt.1 h1)
          subst hcd
          simp only [lexLt, h1, h2, if_neg, not_false_iff]
          rw [ih ds]
          constructor
          · exact fun h => List.Lex.cons h
          · intro h
            cases h with
            | cons hh => exact hh
            | rel hh => exact absurd hh h1

theorem strLt_iff (a b : String) : strLt a b = true ↔ a < b := by
  rw [String.lt_iff_toList_lt]
  exact lexLt_iff a.data b.data

theorem strLt_false_iff (a b : String) : strLt a b = false ↔ b ≤ a := by
  rw [← not_lt, ← strLt_iff]
  cases h : strLt a b <;> simp

/-! ## Frame lemmas for the job tracker's output handlers -/

theorem stdoutCurrentFile_status (line : String) (r : JobRecord) :
    (stdoutCurrentFile line r).status = r.status := by
  unfold stdoutCurrentFile
  repeat' split
  all_goals rfl

theorem stdoutTotal_status (line : String) (r : JobRecord) :
    (stdoutTotal line r).status = r.status := by
  unfold stdoutTotal
  repeat' split
  all_goals rfl

theorem stdoutCompleted_status (line : String) (r : JobRecord) :
    (stdoutCompleted line r).status = r.status := by
  unfold stdoutCompleted
  repeat' split
  all_goals rfl

theorem stdoutSkipped_status (line : String) (r : JobRecord) :
    (stdoutSkipped line r).status = r.status := by
  unfold stdoutSkipped
  repeat' split
  all_goals rfl

theorem stdoutLine_status (r : JobRecord) (line : String) :
    (stdoutLine r line).status = r.status := by
  unfold stdoutLine
  rw [stdoutSkipped_status, stdoutCompleted_status, stdoutTotal_status,
    stdoutCurrentFile_status]

theorem stdoutFold_status (lines : List String) (r : JobRecord) :
    (lines.foldl stdoutLine r).status = r.status := by
  induction lines generalizing r with
  | nil => rfl
  | cons l t ih => rw [List.foldl_cons, ih, stdoutLine_status]

theorem stdoutUpdate_status (r : JobRecord) (chunk : String) :
    (stdoutUpdate r chunk).status = r.status := by
  unfold stdoutUpdate
  rw [stdoutFold_status]

/-- Records with equal keys in a key-nodup association list are equal. -/
theorem keyUnique {l : List (String × JobRecord)} (h : (l.map Prod.fst).Nodup)
    {a : String} {b c : JobRecord} (h1 : (a, b) ∈ l) (h2 : (a, c) ∈ l) : b = c := by
  induction l with
  | nil => cases h1
  | cons p t ih =>
    rcases List.mem_cons.1 h1 with e1 | m1
    · rcases List.mem_cons.1 h2 with e2 | m2
      · rw [← e1] at e2
        simpa using e2.symm
      · exfalso
        rw [List.map_cons, List.nodup_cons] at h
        have hin : a ∈ t.map Prod.fst := List.mem_map.2 ⟨(a, c), m2, rfl⟩
        rw [← e1] at h
        exact h.1 hin
    · rcases List.mem_cons.1 h2 with e2 | m2
      · exfalso
        rw [List.map_cons, List.nodup_cons] at h
        have hin : a ∈ t.map Prod.fst := List.mem_map.2 ⟨(a, b), m1, rfl⟩
        rw [← e2] at h
        exact h.1 hin
      · rw [List.map_cons, List.nodup_cons] at h
        exact ih h.2 m1 m2

/-! ## C7: the range filter's boundary behaviour -/

/-- C7: a file is accepted by `is_in_date_range` exactly when its derived
`YYYY-MM-DD` date is at or after the start bound and at or before the end
bound; an absent (empty) bound constrains nothing; the comparison is the
lexicographic order on the date strings (stated both at the `String` level
and on the underlying character lists).  Dates equal to a bound satisfy
`≤`, so boundary files are included, and dates strictly outside a bound
fail it, so they are excluded. -/
theorem c7_range_filter_boundary (startDate endDate : String) (f : SrcFile) :
    (is_in_date_range startDate endDate f = true ↔
      ((startDate = "" ∨ startDate ≤ f.mtimeDate) ∧
       (endDate = "" ∨ f.mtimeDate ≤ endDate))) ∧
    (is_in_date_range startDate endDate f = true ↔
      ((startDate = "" ∨ startDate.toList ≤ f.mtimeDate.toList) ∧
       (endDate = "" ∨ f.mtimeDate.toList ≤ endDate.toList))) := by
  have key : is_in_date_range startDate endDate f = true ↔
      ((startDate = "" ∨ startDate ≤ f.mtimeDate) ∧
       (endDate = "" ∨ f.mtimeDate ≤ endDate)) := by
    unfold is_in_date_range
    have hs := strLt_iff f.mtimeDate startDate
    have hsf := strLt_false_iff f.mtimeDate startDate
    have he := strLt_iff endDate f.mtimeDate
    have hef := strLt_false_iff endDate f.mtimeDate
    by_cases h1 : startDate = "" <;> by_cases h2 : endDate = "" <;>
      cases hvs : strLt f.mtimeDate startDate <;> cases hve : strLt endDate f.mtimeDate <;>
        simp_all [not_le]
  refine ⟨key, key.trans ?_⟩
  simp only [String.le_iff_toList_le]

/-- C7 witness: concrete boundary checks through the theorem. -/
theorem c7_range_filter_boundary_witness :
    (is_in_date_range "2024-12-01" "2024-12-31"
        ⟨"/p/a.jpg", [1], "2024-12-01", none, 1⟩ = true ↔
      (("2024-12-01" : String) = "" ∨ ("2024-12-01" : String) ≤ "2024-12-01") ∧
      (("2024-12-31" : String) = "" ∨ ("2024-12-01" : String) ≤ "2024-12-31")) ∧
    (is_in_date_range "2024-12-01" "2024-12-31"
        ⟨"/p/a.jpg", [1], "2024-12-01", none, 1⟩ = true ↔
      (("2024-12-01" : String) = "" ∨
        ("2024-12-01" : String).toList ≤ ("2024-12-01" : String).toList) ∧
      (("2024-12-31" : String) = "" ∨
        ("2024-12-01" : String).toList ≤ ("2024-12-31" : String).toList)) :=
  c7_range_filter_boundary "2024-12-01" "2024-12-31" ⟨"/p/a.jpg", [1], "2024-12-01", none, 1⟩

/-! ## C8: startup ordering of the reconciliation pass -/

/-- C8: the claim fails on the code — in the modelled startup order derived
from `app.listen(PORT, async () => { ...; await loadActiveUploads(); })`,
the server is accepting requests (index 0) strictly before the
reconciliation pass runs (index 2), so the pass does not complete before
the Control API starts accepting upload-related requests, and it runs
asynchronously (after two awaited steps inside the listen callback) rather
than synchronously before `listen`. -/
theorem c8_reconcile_after_accepting :
    reconcileBeforeAccepting startupSequence = false ∧
    startupSequence.indexOf StartupEvent.serverAcceptsRequests = 0 ∧
    startupSequence.indexOf StartupEvent.reconciliationPass = 2 := by
  decide

/-! ## C4: the date filters use only the stat date, never EXIF -/

/-- A file whose EXIF capture day and stat modification date disagree:
shot on 2024-12-25, copied or touched on 2025-01-02. -/
def c4File : SrcFile :=
  { path := "/sd/DCIM/100/IMG_0001.RAF", content := [7], mtimeDate := "2025-01-02",
    exifDay := some "2024-12-25", size := 999 }

/-- C4: the claim fails on the code — both filters ignore the extractable
EXIF day.  The spec-side date source yields the EXIF day `2024-12-25`, yet
the import walk for exactly that target date imports nothing (the file is
passed over without even being counted), and the upload range filter
bounded by that very day rejects the file, because both use only the stat
modification date. -/
theorem c4_filters_ignore_exif :
    dateSourceSpec c4File = "2024-12-25" ∧
    c4File.exifDay = some "2024-12-25" ∧
    (import_from_sd false "" "" "/base" "2024-12-25" [] [c4File]).state.importedCount = 0 ∧
    (import_from_sd false "" "" "/base" "2024-12-25" [] [c4File]).state.decisions = [] ∧
    is_in_date_range "2024-12-01" "2024-12-31" c4File = false := by
  decide

/-! ## C5: crash recovery rewrites only the status field -/

/-- C5: a record persisted with status `running` is, after the startup
reconciliation pass, present in the in-memory map and re-persisted with
status `interrupted`, and every other field of the record is unchanged. -/
theorem c5_crash_recovery (persisted : List (String × JobRecord))
    (jid : String) (r : JobRecord)
    (hmem : (jid, r) ∈ persisted) (hrun : r.status = .running) :
    (jid, markInterrupted r) ∈ loadActiveUploads persisted ∧
    (jid, markInterrupted r) ∈ persistedAfterStartup persisted ∧
    (markInterrupted r).status = .interrupted ∧
    (markInterrupted r).sourcePath = r.sourcePath ∧
    (markInterrupted r).startDate = r.startDate ∧
    (markInterrupted r).endDate = r.endDate ∧
    (markInterrupted r).dryRun = r.dryRun ∧
    (markInterrupted r).startTime = r.startTime ∧
    (markInterrupted r).endTime = r.endTime ∧
    (markInterrupted r).exitCode = r.exitCode ∧
    (markInterrupted r).output = r.output ∧
    (markInterrupted r).error = r.error ∧
    (markInterrupted r).currentFile = r.currentFile ∧
    (markInterrupted r).progress = r.progress := by
  refine ⟨?_, ?_, rfl, rfl, rfl, rfl, rfl, rfl, rfl, rfl, rfl, rfl, rfl, rfl⟩
  · exact List.mem_filterMap.2 ⟨(jid, r), hmem, by simp [hrun]⟩
  · exact List.mem_map.2 ⟨(jid, r), hmem, by simp [hrun]⟩

/-- A concrete mid-flight record for the C5 witness. -/
def demoRunning : JobRecord :=
  { status := .running, sourcePath := "/Users/u/Desktop/20241225",
    startDate := some "2024-12-01", endDate := none, dryRun := false,
    startTime := "2024-12-25T10:00:00.000Z", endTime := none, exitCode := none,
    output := "o", error := "", currentFile := "IMG_0001.JPG",
    progress := { total := 10, completed := 3, skipped := 2 } }

/-- C5 witness: the theorem applied to one persisted running record. -/
theorem c5_crash_recovery_witness :
    ("j1", markInterrupted demoRunning) ∈ loadActiveUploads [("j1", demoRunning)] ∧
    ("j1", markInterrupted demoRunning) ∈ persistedAfterStartup [("j1", demoRunning)] ∧
    (markInterrupted demoRunning).status = .interrupted ∧
    (markInterrupted demoRunning).sourcePath = demoRunning.sourcePath ∧
    (markInterrupted demoRunning).startDate = demoRunning.startDate ∧
    (markInterrupted demoRunning).endDate = demoRunning.endDate ∧
    (markInterrupted demoRunning).dryRun = demoRunning.dryRun ∧
    (markInterrupted demoRunning).startTime = demoRunning.startTime ∧
    (markInterrupted demoRunning).endTime = demoRunning.endTime ∧
    (markInterrupted demoRunning).exitCode = demoRunning.exitCode ∧
    (markInterrupted demoRunning).output = demoRunning.output ∧
    (markInterrupted demoRunning).error = demoRunning.error ∧
    (markInterrupted demoRunning).currentFile = demoRunning.currentFile ∧
    (markInterrupted demoRunning).progress = demoRunning.progress :=
  c5_crash_recovery [("j1", demoRunning)] "j1" demoRunning (by decide) (by decide)

/-! ## C6: finalisation on process exit, and terminal statuses absorb -/

/-- C6: when the upload job's process closes, the tracker sets the status
to `completed` exactly for exit code 0 and to `failed` for every other
exit (including a signal death, `none`), stamps `endTime` and `exitCode`,
persists, and schedules deletion after the one-hour retention window; and
a record in a terminal status is not re-statused by any other operation —
the stdout handler, the stderr handler and the startup reconciliation pass
all leave its status (and, for reconciliation, the whole persisted record)
unchanged. -/
theorem c6_finalize_and_terminal_absorbing (r rt : JobRecord) (code : Option Int)
    (now chunk echunk : String) (persisted : List (String × JobRecord)) (jid : String)
    (hterm : rt.status = .completed ∨ rt.status = .failed ∨ rt.status = .interrupted)
    (hmem : (jid, rt) ∈ persisted) :
    (code = some 0 → (finalizeJob r code now).record.status = .completed) ∧
    (code ≠ some 0 → (finalizeJob r code now).record.status = .failed) ∧
    (finalizeJob r code now).record.endTime = some now ∧
    (finalizeJob r code now).record.exitCode = code ∧
    (finalizeJob r code now).persisted = true ∧
    (finalizeJob r code now).deleteAfterMs = RETENTION_MS ∧
    (stdoutUpdate rt chunk).status = rt.status ∧
    (stderrUpdate rt echunk).status = rt.status ∧
    (jid, rt) ∈ persistedAfterStartup persisted := by
  have hnotrun : rt.status ≠ .running := by
    rcases hterm with h | h | h <;> simp [h]
  refine ⟨fun hc => by simp [finalizeJob, hc], fun hc => by simp [finalizeJob, hc],
    rfl, rfl, rfl, rfl, stdoutUpdate_status rt chunk, rfl, ?_⟩
  exact List.mem_map.2 ⟨(jid, rt), hmem, by simp [hnotrun]⟩

/-- A concrete finished record for the C6 witness. -/
def demoDone : JobRecord :=
  { demoRunning with
    status := .completed
    endTime := some "2024-12-25T11:00:00.000Z"
    exitCode := some 0 }

/-- C6 witness: the theorem applied at exit code 0 and a terminal record. -/
theorem c6_finalize_and_terminal_absorbing_witness :
    ((some 0 : Option Int) = some 0 →
      (finalizeJob demoRunning (some 0) "t1").record.status = .completed) ∧
    ((some 0 : Option Int) ≠ some 0 →
      (finalizeJob demoRunning (some 0) "t1").record.status = .failed) ∧
    (finalizeJob demoRunning (some 0) "t1").record.endTime = some "t1" ∧
    (finalizeJob demoRunning (some 0) "t1").record.exitCode = some 0 ∧
    (finalizeJob demoRunning (some 0) "t1").persisted = true ∧
    (finalizeJob demoRunning (some 0) "t1").deleteAfterMs = RETENTION_MS ∧
    (stdoutUpdate demoDone "アップロード中: IMG_2.JPG\n").status = demoDone.status ∧
    (stderrUpdate demoDone "warning\n").status = demoDone.status ∧
    ("j2", demoDone) ∈ persistedAfterStartup [("j2", demoDone)] :=
  c6_finalize_and_terminal_absorbing demoRunning demoDone (some 0) "t1"
    "アップロード中: IMG_2.JPG\n" "warning\n" [("j2", demoDone)] "j2"
    (by decide) (by decide)

/-! ## C10: terminal records are not reloaded on restart -/

/-- C10: a record persisted with a terminal status `completed` or `failed`
is not loaded into the in-memory map by startup reconciliation: after a
restart its id is absent from the map, `GET /api/uploads/:id` answers
not-found, `GET /api/uploads` does not list the id — even though the
persisted progress file still exists, unchanged, in the progress
directory. -/
theorem c10_terminal_not_reloaded (persisted : List (String × JobRecord))
    (jid : String) (r : JobRecord)
    (hmem : (jid, r) ∈ persisted)
    (hkeys : (persisted.map Prod.fst).Nodup)
    (hterm : r.status = .completed ∨ r.status = .failed) :
    lookupUpload (loadActiveUploads persisted) jid = none ∧
    getUploadResponse (loadActiveUploads persisted) jid = .error "Upload not found" ∧
    jid ∉ (loadActiveUploads persisted).map Prod.fst ∧
    (jid, r) ∈ persistedAfterStartup persisted := by
  have hnotrun : r.status ≠ .running := by
    rcases hterm with h | h <;> simp [h]
  have hnotmem : jid ∉ (loadActiveUploads persisted).map Prod.fst := by
    intro hin
    rcases List.mem_map.1 hin with ⟨q, hq, hq1⟩
    rcases List.mem_filterMap.1 hq with ⟨⟨pid, pr⟩, hp, hpq⟩
    by_cases hrun : pr.status = .running
    · rw [if_pos hrun] at hpq
      have hqe : q = (pid, markInterrupted pr) := (Option.some.inj hpq).symm
      have hpid : pid = jid := by rw [hqe] at hq1; exact hq1
      subst hpid
      have : pr = r := keyUnique hkeys hp hmem
      rw [this] at hrun
      exact hnotrun hrun
    · rw [if_neg hrun] at hpq
      cases hpq
  have hfind : (loadActiveUploads persisted).find? (fun p => p.1 == jid) = none := by
    refine List.find?_eq_none.2 (fun x hx => ?_)
    have hne : x.1 ≠ jid := by
      intro he
      exact hnotmem (he ▸ List.mem_map.2 ⟨x, hx, rfl⟩)
    simpa using hne
  refine ⟨?_, ?_, hnotmem, ?_⟩
  · unfold lookupUpload
    rw [hfind]
    rfl
  · unfold getUploadResponse lookupUpload
    rw [hfind]
    rfl
  · exact List.mem_map.2 ⟨(jid, r), hmem, by simp [hnotrun]⟩

/-- C10 witness: one completed and one running record persisted; the
completed one is invisible after restart while its file is retained. -/
theorem c10_terminal_not_reloaded_witness :
    lookupUpload (loadActiveUploads [("j1", demoRunning), ("j2", demoDone)]) "j2" = none ∧
    getUploadResponse (loadActiveUploads [("j1", demoRunning), ("j2", demoDone)]) "j2" =
      .error "Upload not found" ∧
    "j2" ∉ (loadActiveUploads [("j1", demoRunning), ("j2", demoDone)]).map Prod.fst ∧
    ("j2", demoDone) ∈ persistedAfterStartup [("j1", demoRunning), ("j2", demoDone)] :=
  c10_terminal_not_reloaded [("j1", demoRunning), ("j2", demoDone)] "j2" demoDone
    (by decide) (by decide) (by decide)

/-! ## C1: the ledger membership test -/

/-- The digest function of the C1 scenarios (one content value occurs, so
any function represents the restriction of a real digest). -/
def c1Sha : List Nat → String := fun _ => "ffff"

/-- The queried file: relative path `a.jpg` (note the dot). -/
def c1File : SrcFile :=
  { path := "/photos/a.jpg", content := [1], mtimeDate := "2024-12-25",
    exifDay := none, size := 100 }

/-- A ledger entry whose relative path `aXjpg` differs from `a.jpg` at the
dot position but whose hash matches. -/
def c1Entry : LedgerEntry :=
  { timestamp := "2024-12-25T10:00:00+09:00", relativePath := "aXjpg",
    contentHash := "ffff" }

/-- C1 counterexample: `is_uploaded` answers true although no ledger entry
has a relative path equal to the file's relative path — the grep pattern's
`.` (from the file name's extension dot) matches the entry's `X`, so the
claimed iff with an exact `(relative_path, hash)` pair fails. -/
theorem c1_counterexample :
    is_uploaded c1Sha "/photos" (some [c1Entry]) c1File = true ∧
    relPathOf "/photos" c1File.path = "a.jpg" ∧
    ¬ ∃ e ∈ [c1Entry], e.relativePath = relPathOf "/photos" c1File.path ∧
        e.contentHash = c1Sha c1File.content := by
  decide

/-- C1 (amended): over well-formed ledgers (ISO timestamps, `|`-free paths
and hex hashes, a dot-free hex query hash), `is_uploaded` returns true iff
some entry's content hash equals the freshly recomputed hash of the file's
current bytes AND the entry's relative path matches the file's relative
path under the grep wildcard reading, in which each `.` of the query path
matches any single character (an exactly equal pair always matches, since
`dotMatch` is reflexive); when the ledger file does not exist it returns
false and does not throw. -/
theorem c1_is_uploaded_characterisation (sha256 : List Nat → String) (sourceDir : String)
    (entries : List LedgerEntry) (f : SrcFile)
    (hts : ∀ e ∈ entries, '|' ∉ e.timestamp.data)
    (hrels : ∀ e ∈ entries, '|' ∉ e.relativePath.data)
    (hhashes : ∀ e ∈ entries, '|' ∉ e.contentHash.data)
    (hq : '|' ∉ (relPathOf sourceDir f.path).data)
    (hqd : '.' ∉ (sha256 f.content).data) :
    is_uploaded sha256 sourceDir none f = false ∧
    (is_uploaded sha256 sourceDir (some entries) f = true ↔
      ∃ e ∈ entries,
        dotMatch (relPathOf sourceDir f.path).data e.relativePath.data = true ∧
        e.contentHash = sha256 f.content) := by
  refine ⟨rfl, ?_⟩
  show (entries.any fun e =>
      hasSuffixMatch (grepPat (relPathOf sourceDir f.path) (sha256 f.content))
        (entryLine e)) = true ↔ _
  rw [List.any_eq_true]
  constructor
  · rintro ⟨e, he, hm⟩
    refine ⟨e, he, ?_⟩
    rw [grepPat_decomp, entryLine_decomp, breToks_of_no_dot hqd] at hm
    have hdec := (grep_line_iff (hts e he) hq (hrels e he) (hhashes e he)).1 hm
    exact ⟨hdec.1, String.toList_inj.1 hdec.2.symm⟩
  · rintro ⟨e, he, hd, hh⟩
    refine ⟨e, he, ?_⟩
    rw [grepPat_decomp, entryLine_decomp, breToks_of_no_dot hqd]
    exact (grep_line_iff (hts e he) hq (hrels e he) (hhashes e he)).2 ⟨hd, by rw [hh]⟩

/-- A ledger entry equal to the query pair, for the C1 witness. -/
def c1ExactEntry : LedgerEntry :=
  { timestamp := "2024-12-25T10:00:00+09:00", relativePath := "a.jpg",
    contentHash := "ffff" }

/-- C1 witness: the characterisation applied to a concrete ledger holding
the exact entry of the queried file. -/
theorem c1_is_uploaded_characterisation_witness :
    is_uploaded c1Sha "/photos" none c1File = false ∧
    (is_uploaded c1Sha "/photos" (some [c1ExactEntry]) c1File = true ↔
      ∃ e ∈ [c1ExactEntry],
        dotMatch (relPathOf "/photos" c1File.path).data e.relativePath.data = true ∧
        e.contentHash = c1Sha c1File.content) :=
  c1_is_uploaded_characterisation c1Sha "/photos" [c1ExactEntry] c1File
    (by decide) (by decide) (by decide) (by decide) (by decide)

/-! ## Abort lemmas: the fatal first counter increments -/

/-- Once the script has died in the upload loop nothing further runs. -/
theorem processFile_dead (rawExts jpgExts excludePats : String)
    (sha256 : List Nat → String) (now : String) (dryRun : Bool)
    (startDate endDate sourceDir : String) (st : UploadState) (f : SrcFile)
    (ha : st.aborted = true) :
    processFile rawExts jpgExts excludePats sha256 now dryRun startDate endDate
      sourceDir st f = st := by
  unfold processFile
  simp [ha]

theorem upload_fold_dead (rawExts jpgExts excludePats : String)
    (sha256 : List Nat → String) (now : String) (dryRun : Bool)
    (startDate endDate sourceDir : String) (files : List SrcFile) :
    ∀ st : UploadState, st.aborted = true →
      files.foldl (processFile rawExts jpgExts excludePats sha256 now dryRun
        startDate endDate sourceDir) st = st := by
  induction files with
  | nil =>
    intro st _
    rfl
  | cons g t ih =>
    intro st ha
    rw [List.foldl_cons,
      processFile_dead rawExts jpgExts excludePats sha256 now dryRun startDate
        endDate sourceDir st g ha]
    exact ih st ha

/-- Every non-empty walk of `upload_to_s3`, dry or live, dies at the very
first file: `((file_count++))` is the first command of the loop body and
`file_count` is still 0, so the arithmetic command returns status 1 and
`set -e` kills the script.  At the moment of death nothing was transferred,
nothing was appended to the ledger, and no other counter moved. -/
theorem upload_aborts_at_first_file (rawExts jpgExts excludePats : String)
    (sha256 : List Nat → String) (now : String) (dryRun : Bool)
    (startDate endDate sourceDir : String)
    (ledger0 : Option (List LedgerEntry)) (f : SrcFile) (rest : List SrcFile) :
    upload_to_s3 rawExts jpgExts excludePats sha256 now dryRun startDate endDate
      sourceDir ledger0 (f :: rest) =
    { fileCount := 1, skipCount := 0, uploadCount := 0, totalSize := 0,
      ledger := ledger0, transfers := [], decisions := [], aborted := true } := by
  have h1 : upload_to_s3 rawExts jpgExts excludePats sha256 now dryRun startDate
      endDate sourceDir ledger0 (f :: rest) =
      rest.foldl (processFile rawExts jpgExts excludePats sha256 now dryRun
        startDate endDate sourceDir)
        { fileCount := 1, skipCount := 0, uploadCount := 0, totalSize := 0,
          ledger := ledger0, transfers := [], decisions := [], aborted := true } := rfl
  rw [h1]
  exact upload_fold_dead rawExts jpgExts excludePats sha256 now dryRun startDate
    endDate sourceDir rest _ rfl

/-! ## C2: the dedup machinery is unreachable -/

/-- C2: the claim fails on the code — no run ever reaches the dedup
machinery.  `upload_to_s3` executes `((file_count++))` as the first command
of its per-file loop with `file_count` still 0; under `set -euo pipefail`
that arithmetic command returns status 1 and kills the script at the first
walked file of every run.  Uploading an unchanged file twice therefore
performs zero transfers and appends zero ledger entries on each attempt,
and the second run counts the file in neither `skip_count` nor
`upload_count` — it dies before any check, exactly as the first did over
the identical (unchanged) ledger; only a walk of an empty tree completes. -/
theorem c2_upload_dies_before_dedup (rawExts jpgExts excludePats : String)
    (sha256 : List Nat → String) (now startDate endDate sourceDir : String)
    (ledger0 : Option (List LedgerEntry)) (f : SrcFile) (rest : List SrcFile) :
    (upload_to_s3 rawExts jpgExts excludePats sha256 now false startDate endDate
        sourceDir ledger0 (f :: rest)).aborted = true ∧
    (upload_to_s3 rawExts jpgExts excludePats sha256 now false startDate endDate
        sourceDir ledger0 (f :: rest)).transfers = [] ∧
    (upload_to_s3 rawExts jpgExts excludePats sha256 now false startDate endDate
        sourceDir ledger0 (f :: rest)).ledger = ledger0 ∧
    (upload_to_s3 rawExts jpgExts excludePats sha256 now false startDate endDate
        sourceDir ledger0 (f :: rest)).uploadCount = 0 ∧
    (upload_to_s3 rawExts jpgExts excludePats sha256 now false startDate endDate
        sourceDir ledger0 (f :: rest)).skipCount = 0 ∧
    (upload_to_s3 rawExts jpgExts excludePats sha256 now false startDate endDate
        sourceDir ledger0 (f :: rest)).decisions = [] ∧
    (upload_to_s3 rawExts jpgExts excludePats sha256 now false startDate endDate
        sourceDir ledger0 []).aborted = false := by
  rw [upload_aborts_at_first_file]
  exact ⟨rfl, rfl, rfl, rfl, rfl, rfl, rfl⟩

/-! ## C3: dry-run versus live run -/

/-- A fresh SD photo whose `stat` date is the import target date. -/
def c3FileA : SrcFile :=
  { path := "/Volumes/SD/DCIM/100/IMG_0001.JPG", content := [3],
    mtimeDate := "2024-12-25", exifDay := none, size := 100 }

/-- C3: the claim fails on the code.  Over the same single fresh file, the
dry-run import completes its walk (it increments no counter), logs the file
as a would-be copy, reports its summary and chains an upload, while the
live run copies the file and then dies with status 1 at
`((imported_count++))` — no summary, no chained upload, and the decisions
and reported totals of the two runs diverge.  The upload side cannot even
be compared per-file: both the dry and the live `upload_to_s3` die at
`((file_count++))` on their first file, with zero transfers, zero ledger
writes and `total_size` still 0, so the claimed equal reported totals are
never produced.  Dry-run does remain effect-free throughout: zero
transfers, zero copies, zero ledger writes. -/
theorem c3_dry_live_divergence :
    (import_from_sd true "" "" "/base" "2024-12-25" [] [c3FileA]).state.aborted = false ∧
    (import_from_sd true "" "" "/base" "2024-12-25" [] [c3FileA]).state.copies = [] ∧
    (import_from_sd true "" "" "/base" "2024-12-25" [] [c3FileA]).state.decisions
      = [true] ∧
    (import_from_sd true "" "" "/base" "2024-12-25" [] [c3FileA]).chainedUpload ≠ none ∧
    (import_from_sd false "" "" "/base" "2024-12-25" [] [c3FileA]).state.aborted = true ∧
    (import_from_sd false "" "" "/base" "2024-12-25" [] [c3FileA]).state.copies
      = ["IMG_0001.JPG"] ∧
    (import_from_sd false "" "" "/base" "2024-12-25" [] [c3FileA]).chainedUpload = none ∧
    (upload_to_s3 "raf,nef,arw,dng" "jpg,jpeg" "" c1Sha "2024-12-25T10:00:00+09:00"
        true "" "" "/photos" none [c1File]).aborted = true ∧
    (upload_to_s3 "raf,nef,arw,dng" "jpg,jpeg" "" c1Sha "2024-12-25T10:00:00+09:00"
        true "" "" "/photos" none [c1File]).transfers = [] ∧
    (upload_to_s3 "raf,nef,arw,dng" "jpg,jpeg" "" c1Sha "2024-12-25T10:00:00+09:00"
        true "" "" "/photos" none [c1File]).ledger = none ∧
    (upload_to_s3 "raf,nef,arw,dng" "jpg,jpeg" "" c1Sha "2024-12-25T10:00:00+09:00"
        true "" "" "/photos" none [c1File]).totalSize = 0 ∧
    (upload_to_s3 "raf,nef,arw,dng" "jpg,jpeg" "" c1Sha "2024-12-25T10:00:00+09:00"
        false "" "" "/photos" none [c1File]).aborted = true ∧
    (upload_to_s3 "raf,nef,arw,dng" "jpg,jpeg" "" c1Sha "2024-12-25T10:00:00+09:00"
        false "" "" "/photos" none [c1File]).transfers = [] ∧
    (upload_to_s3 "raf,nef,arw,dng" "jpg,jpeg" "" c1Sha "2024-12-25T10:00:00+09:00"
        false "" "" "/photos" none [c1File]).ledger = none := by
  decide

/-! ## Branch lemmas for the import loop -/

theorem importStep_dead (dryRun : Bool) (importDate : String) (st : ImportState)
    (f : SrcFile) (ha : st.aborted = true) :
    importStep dryRun importDate st f = st := by
  unfold importStep
  simp [ha]

theorem importStep_pass (dryRun : Bool) (importDate : String) (st : ImportState)
    (f : SrcFile) (ha : st.aborted = false) (hd : f.mtimeDate ≠ importDate) :
    importStep dryRun importDate st f = st := by
  unfold importStep
  simp [ha, hd]

theorem importStep_skip_abort (dryRun : Bool) (importDate : String) (st : ImportState)
    (f : SrcFile) (ha : st.aborted = false) (hd : f.mtimeDate = importDate)
    (hc : st.destFiles.contains (basename f.path) = true) (hs : st.skippedCount = 0) :
    importStep dryRun importDate st f =
      { st with skippedCount := 1, decisions := st.decisions ++ [false],
                aborted := true } := by
  have hc2 : basename f.path ∈ st.destFiles := by simpa using hc
  unfold importStep
  simp [ha, hd, hc2, hs]

theorem importStep_skip_next (dryRun : Bool) (importDate : String) (st : ImportState)
    (f : SrcFile) (ha : st.aborted = false) (hd : f.mtimeDate = importDate)
    (hc : st.destFiles.contains (basename f.path) = true) (hs : st.skippedCount ≠ 0) :
    importStep dryRun importDate st f =
      { st with skippedCount := st.skippedCount + 1,
                decisions := st.decisions ++ [false] } := by
  have hc2 : basename f.path ∈ st.destFiles := by simpa using hc
  unfold importStep
  simp [ha, hd, hc2, hs]

theorem importStep_new_dry (importDate : String) (st : ImportState)
    (f : SrcFile) (ha : st.aborted = false) (hd : f.mtimeDate = importDate)
    (hc : st.destFiles.contains (basename f.path) = false) :
    importStep true importDate st f = { st with decisions := st.decisions ++ [true] } := by
  have hc2 : basename f.path ∉ st.destFiles := by simpa using hc
  unfold importStep
  simp [ha, hd, hc2]

theorem importStep_new_live_abort (importDate : String) (st : ImportState)
    (f : SrcFile) (ha : st.aborted = false) (hd : f.mtimeDate = importDate)
    (hc : st.destFiles.contains (basename f.path) = false)
    (hi : st.importedCount = 0) :
    importStep false importDate st f =
      { st with importedCount := 1, copies := st.copies ++ [basename f.path],
                destFiles := st.destFiles ++ [basename f.path],
                decisions := st.decisions ++ [true], aborted := true } := by
  have hc2 : basename f.path ∉ st.destFiles := by simpa using hc
  unfold importStep
  simp [ha, hd, hc2, hi]

theorem importStep_new_live_next (importDate : String) (st : ImportState)
    (f : SrcFile) (ha : st.aborted = false) (hd : f.mtimeDate = importDate)
    (hc : st.destFiles.contains (basename f.path) = false)
    (hi : st.importedCount ≠ 0) :
    importStep false importDate st f =
      { st with importedCount := st.importedCount + 1,
                copies := st.copies ++ [basename f.path],
                destFiles := st.destFiles ++ [basename f.path],
                decisions := st.decisions ++ [true] } := by
  have hc2 : basename f.path ∉ st.destFiles := by simpa using hc
  unfold importStep
  simp [ha, hd, hc2, hi]

/-- A live import step preserves the invariant "not dead implies nothing
imported yet": the only step that raises `imported_count` above 0 is the
fatal `((imported_count++))` itself, which sets the abort flag. -/
theorem importStep_live_keeps_zero (importDate : String) (st : ImportState)
    (f : SrcFile) (h : st.aborted = false → st.importedCount = 0) :
    (importStep false importDate st f).aborted = false →
      (importStep false importDate st f).importedCount = 0 := by
  by_cases ha : st.aborted = true
  · rw [importStep_dead false importDate st f ha]
    exact h
  · have ha2 : st.aborted = false := bool_eq_false ha
    have h0 : st.importedCount = 0 := h ha2
    by_cases hd : f.mtimeDate = importDate
    · by_cases hc : st.destFiles.contains (basename f.path) = true
      · by_cases hs : st.skippedCount = 0
        · rw [importStep_skip_abort false importDate st f ha2 hd hc hs]
          intro habs
          simp at habs
        · rw [importStep_skip_next false importDate st f ha2 hd hc hs]
          intro hx
          exact h0
      · have hc2 : st.destFiles.contains (basename f.path) = false := bool_eq_false hc
        rw [importStep_new_live_abort importDate st f ha2 hd hc2 h0]
        intro habs
        simp at habs
    · rw [importStep_pass false importDate st f ha2 hd]
      intro hx
      exact h0

/-- A completed (non-aborted) live import walk has imported nothing. -/
theorem import_live_fold_zero (importDate : String) (files : List SrcFile) :
    ∀ st : ImportState, (st.aborted = false → st.importedCount = 0) →
      (files.foldl (importStep false importDate) st).aborted = false →
      (files.foldl (importStep false importDate) st).importedCount = 0 := by
  induction files with
  | nil =>
    intro st h
    exact h
  | cons g t ih =>
    intro st h
    rw [List.foldl_cons]
    exact ih (importStep false importDate st g)
      (importStep_live_keeps_zero importDate st g h)

/-! ## C9: the chained upload after an import -/

/-- A fresh SD photo dated on the import day, for the C9 scenario. -/
def c9File : SrcFile :=
  { path := "/Volumes/SD/DCIM/100/IMG_0002.JPG", content := [9],
    mtimeDate := "2024-12-25", exifDay := none, size := 200 }

/-- C9 counterexample: a dry-run import invoked with a global `--start`
bound completes its walk (dry-run increments no counter) and chains an
upload that carries that bound unchanged — the chained invocation is not
free of date bounds, and under the inherited bound the range filter
rejects the very file just imported. -/
theorem c9_counterexample :
    (import_from_sd true "9999-01-01" "" "/base" "2024-12-25" [] [c9File]).chainedUpload
      = some { sourceDir := "/base/20241225", startDate := "9999-01-01",
               endDate := "", dryRun := true } ∧
    is_in_date_range "9999-01-01" "" c9File = false := by
  decide

/-- The shape of the chained-upload decision, read off `import_from_sd`. -/
theorem import_chained_eq (dryRun : Bool) (startDate endDate base importDate : String)
    (existingDest : List String) (files : List SrcFile) :
    (import_from_sd dryRun startDate endDate base importDate existingDest
        files).chainedUpload =
      (if (import_from_sd dryRun startDate endDate base importDate existingDest
            files).state.aborted = true then none
       else if (decide (0 < (import_from_sd dryRun startDate endDate base importDate
            existingDest files).state.importedCount) || dryRun) = true then
         some { sourceDir := base ++ "/" ++ dateFolderName importDate,
                startDate := startDate, endDate := endDate, dryRun := dryRun }
       else none) := rfl

/-- C9 (amended): the chained upload after an import.  A walk that aborted
(the script died with status 1 at a counter increment) never reaches the
chain.  A walk that completes invokes the Uploader iff at least one file
was imported or dry-run is active, against the destination folder, and the
chained call passes no date bounds of its own but reads the globally
parsed `--start`/`--end` values unchanged — they are empty unless supplied
on the command line, and only then does the range filter constrain
nothing.  Moreover, because `((imported_count++))` kills a live run at its
first copy, a completed live walk has imported nothing, so a live import
never chains an upload at all: the chain fires only in dry-run mode. -/
theorem c9_chained_upload (dryRun : Bool) (startDate endDate base importDate : String)
    (existingDest : List String) (files : List SrcFile) (g : SrcFile) :
    ((import_from_sd dryRun startDate endDate base importDate existingDest
        files).state.aborted = true →
      (import_from_sd dryRun startDate endDate base importDate existingDest
        files).chainedUpload = none) ∧
    ((import_from_sd dryRun startDate endDate base importDate existingDest
        files).state.aborted = false →
      ((import_from_sd dryRun startDate endDate base importDate existingDest
          files).chainedUpload ≠ none ↔
        (0 < (import_from_sd dryRun startDate endDate base importDate existingDest
          files).state.importedCount ∨ dryRun = true))) ∧
    ((import_from_sd dryRun startDate endDate base importDate existingDest
        files).chainedUpload ≠ none →
      (import_from_sd dryRun startDate endDate base importDate existingDest
        files).chainedUpload =
        some { sourceDir := base ++ "/" ++ dateFolderName importDate,
               startDate := startDate, endDate := endDate, dryRun := dryRun }) ∧
    (dryRun = false →
      (import_from_sd dryRun startDate endDate base importDate existingDest
        files).chainedUpload = none) ∧
    (startDate = "" → endDate = "" → is_in_date_range startDate endDate g = true) := by
  have hch := import_chained_eq dryRun startDate endDate base importDate existingDest files
  refine ⟨?_, ?_, ?_, ?_, ?_⟩
  · intro ha
    rw [hch, if_pos ha]
  · intro ha
    rw [hch, if_neg (by simp [ha])]
    by_cases h1 : (decide (0 < (import_from_sd dryRun startDate endDate base importDate
        existingDest files).state.importedCount) || dryRun) = true
    · rw [if_pos h1]
      constructor
      · intro hx
        simpa using h1
      · intro hx
        simp
    · rw [if_neg h1]
      constructor
      · intro hne
        exact absurd rfl hne
      · intro hor
        exact absurd (by simpa using hor) h1
  · rw [hch]
    by_cases ha : (import_from_sd dryRun startDate endDate base importDate existingDest
        files).state.aborted = true
    · rw [if_pos ha]
      intro hne
      exact absurd rfl hne
    · rw [if_neg ha]
      by_cases h1 : (decide (0 < (import_from_sd dryRun startDate endDate base importDate
          existingDest files).state.importedCount) || dryRun) = true
      · rw [if_pos h1]
        intro hx
        rfl
      · rw [if_neg h1]
        intro hne
        exact absurd rfl hne
  · intro hdry
    subst hdry
    rw [hch]
    by_cases ha : (import_from_sd false startDate endDate base importDate existingDest
        files).state.aborted = true
    · rw [if_pos ha]
    · rw [if_neg ha]
      have hstate : (import_from_sd false startDate endDate base importDate existingDest
          files).state =
          files.foldl (importStep false importDate)
            { importedCount := 0, skippedCount := 0, copies := [],
              destFiles := existingDest, decisions := [], aborted := false } := rfl
      have h0 : (import_from_sd false startDate endDate base importDate existingDest
          files).state.importedCount = 0 := by
        rw [hstate]
        refine import_live_fold_zero importDate files _ (fun _ => rfl) ?_
        rw [← hstate]
        exact bool_eq_false ha
      rw [if_neg (by simp [h0])]
  · intro h1 h2
    subst h1
    subst h2
    rfl

theorem c9_chained_upload_witness :
    (import_from_sd true "" "" "/base" "2024-12-25" [] [c9File]).chainedUpload ≠ none ∧
    (import_from_sd true "" "" "/base" "2024-12-25" [] [c9File]).chainedUpload =
      some { sourceDir := "/base" ++ "/" ++ dateFolderName "2024-12-25",
             startDate := "", endDate := "", dryRun := true } ∧
    is_in_date_range "" "" c9File = true :=
  ⟨((c9_chained_upload true "" "" "/base" "2024-12-25" [] [c9File] c9File).2.1
      (by decide)).mpr (Or.inr rfl),
   (c9_chained_upload true "" "" "/base" "2024-12-25" [] [c9File] c9File).2.2.1
     (by decide),
   (c9_chained_upload true "" "" "/base" "2024-12-25" [] [c9File] c9File).2.2.2.2
     rfl rfl⟩

end PhotoBackup
